import Mathlib

/-!
Shallow embedding of the import pipeline of `src/import/import.service.ts`.

Remote management-API calls are modelled by a client record (`MClient`) of
`Except`-valued functions, together with an explicit trace (`TraceState`) of
the requests issued and of the invocations of the optional progress callback
(`config.processItem`).  A thrown JavaScript error is modelled by
`Except.error` carrying the message; `handleImportError` logs and re-throws,
so a rejected remote call surfaces as the same `Except.error`.  Because in
TypeScript a remote call already issued stays issued when a later exception
is thrown, every modelled operation returns the trace alongside the
`Except` value rather than inside it.
-/

/-- The seven entity kinds handled by the pipeline (`ItemType` in `core`). -/
inductive ItemType where
  | language
  | asset
  | contentType
  | contentItem
  | languageVariant
  | contentTypeSnippet
  | taxonomy
  deriving DecidableEq, Repr

/-- A reference object in a request body: addressed either by id or by codename. -/
inductive Reference where
  | byId (id : String)
  | byCodename (codename : String)
  deriving DecidableEq, Repr

/-- Language contract as consumed by `importLanguagesAsync`; the fallback codename
models `(language.fallback_language as any).codename`, which may be absent. -/
structure LanguageContract where
  id : String
  name : String
  codename : String
  external_id : Option String
  fallback_language_codename : Option String
  is_active : Bool
  deriving DecidableEq, Repr

/-- Asset contract; `descriptions` is kept opaque since the code only forwards it. -/
structure AssetContract where
  id : String
  file_name : String
  title : String
  external_id : Option String
  type : String
  descriptions : String
  deriving DecidableEq, Repr

/-- Binary payload joined to an asset by source id (`IBinaryFile`). -/
structure IBinaryFile where
  asset : AssetContract
  binaryData : String
  deriving DecidableEq, Repr

/-- Content type contract; only `id` is inspected, the rest is forwarded opaquely. -/
structure ContentTypeContract where
  id : String
  body : String
  deriving DecidableEq, Repr

/-- Content type snippet contract; only `id` is inspected. -/
structure ContentTypeSnippetContract where
  id : String
  body : String
  deriving DecidableEq, Repr

/-- Taxonomy contract; only `id` is inspected. -/
structure TaxonomyContract where
  id : String
  body : String
  deriving DecidableEq, Repr

/-- Content item contract; the type codename models `(contentItem.type as any).codename`. -/
structure ContentItemContract where
  id : String
  name : String
  codename : String
  external_id : Option String
  type_codename : Option String
  deriving DecidableEq, Repr

/-- The `item` back-pointer of a language variant. -/
structure VariantItemRef where
  id : String
  codename : Option String
  deriving DecidableEq, Repr

/-- The `language` back-pointer of a language variant. -/
structure VariantLanguageRef where
  id : String
  codename : Option String
  deriving DecidableEq, Repr

/-- The `workflow_step` pointer of a language variant. -/
structure WorkflowStepRef where
  id : String
  deriving DecidableEq, Repr

/-- One element of a language variant payload; `value_refs` are the source-side ids
embedded in the element value that the Reference Rewriter may substitute. -/
structure ElementContract where
  element_id : String
  value_refs : List String
  deriving DecidableEq, Repr

/-- Language variant contract as consumed by `importLanguageVariantsAsync`. -/
structure LanguageVariantContract where
  item : VariantItemRef
  language : VariantLanguageRef
  workflow_step : WorkflowStepRef
  elements : List ElementContract
  deriving DecidableEq, Repr

/-- Created-language response data (`response.data` of `addLanguage`). -/
structure LanguageModel where
  id : String
  name : String
  deriving DecidableEq, Repr

/-- Opaque file reference returned by `uploadBinaryFile`. -/
structure FileReference where
  id : String
  deriving DecidableEq, Repr

/-- Created-asset response data. -/
structure AssetModel where
  id : String
  fileName : String
  deriving DecidableEq, Repr

/-- Created-content-type response data. -/
structure ContentTypeModel where
  id : String
  name : String
  deriving DecidableEq, Repr

/-- Created-content-item response data. -/
structure ContentItemModel where
  id : String
  name : String
  deriving DecidableEq, Repr

/-- The `item` pointer inside an upserted-variant response. -/
structure VariantModelItemRef where
  id : String
  deriving DecidableEq, Repr

/-- Upserted-language-variant response data. -/
structure LanguageVariantModel where
  item : VariantModelItemRef
  deriving DecidableEq, Repr

/-- Created-snippet response data. -/
structure ContentTypeSnippetModel where
  id : String
  name : String
  deriving DecidableEq, Repr

/-- Created-taxonomy response data. -/
structure TaxonomyModel where
  id : String
  name : String
  deriving DecidableEq, Repr

/-- Union of the seven source-side contracts (`ValidImportContract` in `core`). -/
inductive ValidImportContract where
  | language (c : LanguageContract)
  | asset (c : AssetContract)
  | contentType (c : ContentTypeContract)
  | contentItem (c : ContentItemContract)
  | languageVariant (c : LanguageVariantContract)
  | contentTypeSnippet (c : ContentTypeSnippetContract)
  | taxonomy (c : TaxonomyContract)
  deriving DecidableEq, Repr

/-- Union of the seven created/imported models (`ValidImportModel` in `core`). -/
inductive ValidImportModel where
  | language (m : LanguageModel)
  | asset (m : AssetModel)
  | contentType (m : ContentTypeModel)
  | contentItem (m : ContentItemModel)
  | languageVariant (m : LanguageVariantModel)
  | contentTypeSnippet (m : ContentTypeSnippetModel)
  | taxonomy (m : TaxonomyModel)
  deriving DecidableEq, Repr

/-- One per-entity import outcome (`IImportItemResult`). -/
structure IImportItemResult where
  imported : ValidImportModel
  original : ValidImportContract
  importId : String
  originalId : String
  deriving DecidableEq, Repr

/-- Request body of `addLanguage().withData(...)`. -/
structure AddLanguageData where
  codename : String
  name : String
  external_id : Option String
  fallback_language : Reference
  is_active : Bool
  deriving DecidableEq, Repr

/-- Request body of `uploadBinaryFile().withData(...)`. -/
structure UploadBinaryFileData where
  binaryData : String
  contentType : String
  filename : String
  deriving DecidableEq, Repr

/-- Request body of `addAsset().withData(...)`. -/
structure AddAssetData where
  descriptions : String
  file_reference : FileReference
  title : String
  external_id : Option String
  deriving DecidableEq, Repr

/-- Request body of `addContentItem().withData(...)`. -/
structure AddContentItemData where
  name : String
  type : Reference
  codename : String
  external_id : Option String
  deriving DecidableEq, Repr

/-- One issued remote request, carrying exactly the data the source puts on the wire. -/
inductive RemoteCall where
  | addLanguage (data : AddLanguageData)
  | uploadBinaryFile (data : UploadBinaryFileData)
  | addAsset (data : AddAssetData)
  | addContentType (data : ContentTypeContract)
  | addContentItem (data : AddContentItemData)
  | upsertLanguageVariant (itemCodename : String) (languageCodename : String)
      (elements : List ElementContract)
  | addContentTypeSnippet (data : ContentTypeSnippetContract)
  | addTaxonomy (data : TaxonomyContract)
  deriving DecidableEq, Repr

/-- One invocation of the optional `config.processItem` progress callback. -/
structure CallbackInvocation where
  title : String
  type : ItemType
  data : ValidImportModel
  deriving DecidableEq, Repr

/-- Observable side effects of a (partial) run: issued requests and callback calls. -/
structure TraceState where
  calls : List RemoteCall
  cbs : List CallbackInvocation
  deriving DecidableEq, Repr

/-- The management client: each remote operation either returns response data or
rejects with an error message. -/
structure MClient where
  addLanguage : AddLanguageData → Except String LanguageModel
  uploadBinaryFile : UploadBinaryFileData → Except String FileReference
  addAsset : AddAssetData → Except String AssetModel
  addContentType : ContentTypeContract → Except String ContentTypeModel
  addContentItem : AddContentItemData → Except String ContentItemModel
  upsertLanguageVariant : String → String → List ElementContract →
      Except String LanguageVariantModel
  addContentTypeSnippet : ContentTypeSnippetContract → Except String ContentTypeSnippetModel
  addTaxonomy : TaxonomyContract → Except String TaxonomyModel

/-- Import configuration consumed by the service: `workflowIdForImportedItems`,
whether `skip?.languages === true`, and whether a `processItem` callback is set. -/
structure IImportConfig where
  workflowIdForImportedItems : String
  skipLanguages : Bool
  processItemEnabled : Bool
  deriving DecidableEq, Repr

/-- JavaScript falsiness of an optional string: absent (`undefined`) or empty. -/
def falsyOptStr : Option String → Bool
  | none => true
  | some s => s.isEmpty

/-- Record one issued remote request in the trace. -/
def emitCall (st : TraceState) (c : RemoteCall) : TraceState :=
  { st with calls := st.calls ++ [c] }

/-- The private `processItem` helper: invokes the progress callback when configured. -/
def processItemCb (config : IImportConfig) (title : String) (t : ItemType)
    (data : ValidImportModel) (st : TraceState) : TraceState :=
  if config.processItemEnabled then
    { st with cbs := st.cbs ++ [{ title := title, type := t, data := data }] }
  else st

/-- Loop body of `importLanguagesAsync`: validates the fallback codename, builds the
`addLanguage` request (self-fallback rewritten to the zero-GUID sentinel), and on
success records the result and reports progress. -/
def importLanguagesGo (client : MClient) (config : IImportConfig) :
    List LanguageContract → List IImportItemResult → TraceState →
    Except String (List IImportItemResult) × TraceState
  | [], importedItems, st => (Except.ok importedItems, st)
  | language :: rest, importedItems, st =>
    if falsyOptStr language.fallback_language_codename then
      (Except.error ("Langauge '" ++ language.name ++ "' has unset codename"), st)
    else
      let fallbackLanguageCodename := language.fallback_language_codename.getD ""
      let data : AddLanguageData :=
        { codename := language.codename
          name := language.name
          external_id := language.external_id
          fallback_language :=
            if language.codename == fallbackLanguageCodename then
              Reference.byId "00000000-0000-0000-0000-000000000000"
            else
              Reference.byCodename fallbackLanguageCodename
          is_active := language.is_active }
      let st1 := emitCall st (RemoteCall.addLanguage data)
      match client.addLanguage data with
      | Except.error e => (Except.error e, st1)
      | Except.ok model =>
        let st2 := processItemCb config model.name ItemType.language
          (ValidImportModel.language model) st1
        importLanguagesGo client config rest
          (importedItems ++
            [{ imported := ValidImportModel.language model
               original := ValidImportContract.language language
               importId := model.id
               originalId := language.id }]) st2

/-- `ImportService.importLanguagesAsync`. -/
def importLanguagesAsync (client : MClient) (config : IImportConfig)
    (languages : List LanguageContract) (st : TraceState) :
    Except String (List IImportItemResult) × TraceState :=
  importLanguagesGo client config languages [] st

/-- Loop body of `importAssetsAsync`: joins the binary payload by source asset id
(failing before any remote call when absent), uploads the raw bytes, then creates
the asset metadata carrying the returned file reference.  The upload has no
`.catch` in the source; either failing call surfaces as the thrown error. -/
def importAssetsGo (client : MClient) (config : IImportConfig)
    (binaryFiles : List IBinaryFile) :
    List AssetContract → List IImportItemResult → TraceState →
    Except String (List IImportItemResult) × TraceState
  | [], importedItems, st => (Except.ok importedItems, st)
  | asset :: rest, importedItems, st =>
    match binaryFiles.find? (fun m => m.asset.id == asset.id) with
    | none =>
      (Except.error ("Could not find binary file for asset with id '" ++ asset.id ++ "'"), st)
    | some binaryFile =>
      let uploadData : UploadBinaryFileData :=
        { binaryData := binaryFile.binaryData
          contentType := asset.type
          filename := asset.file_name }
      let st1 := emitCall st (RemoteCall.uploadBinaryFile uploadData)
      match client.uploadBinaryFile uploadData with
      | Except.error e => (Except.error e, st1)
      | Except.ok uploadedBinaryFile =>
        let assetData : AddAssetData :=
          { descriptions := asset.descriptions
            file_reference := uploadedBinaryFile
            title := asset.title
            external_id := asset.external_id }
        let st2 := emitCall st1 (RemoteCall.addAsset assetData)
        match client.addAsset assetData with
        | Except.error e => (Except.error e, st2)
        | Except.ok model =>
          let st3 := processItemCb config model.fileName ItemType.asset
            (ValidImportModel.asset model) st2
          importAssetsGo client config binaryFiles rest
            (importedItems ++
              [{ imported := ValidImportModel.asset model
                 original := ValidImportContract.asset asset
                 importId := model.id
                 originalId := asset.id }]) st3

/-- `ImportService.importAssetsAsync`. -/
def importAssetsAsync (client : MClient) (config : IImportConfig)
    (assets : List AssetContract) (binaryFiles : List IBinaryFile) (st : TraceState) :
    Except String (List IImportItemResult) × TraceState :=
  importAssetsGo client config binaryFiles assets [] st

/-- Loop body of `importContentTypesAsync`: forwards the contract unchanged. -/
def importContentTypesGo (client : MClient) (config : IImportConfig) :
    List ContentTypeContract → List IImportItemResult → TraceState →
    Except String (List IImportItemResult) × TraceState
  | [], importedItems, st => (Except.ok importedItems, st)
  | contentType :: rest, importedItems, st =>
    let st1 := emitCall st (RemoteCall.addContentType contentType)
    match client.addContentType contentType with
    | Except.error e => (Except.error e, st1)
    | Except.ok model =>
      let st2 := processItemCb config model.name ItemType.contentType
        (ValidImportModel.contentType model) st1
      importContentTypesGo client config rest
        (importedItems ++
          [{ imported := ValidImportModel.contentType model
             original := ValidImportContract.contentType contentType
             importId := model.id
             originalId := contentType.id }]) st2

/-- `ImportService.importContentTypesAsync`. -/
def importContentTypesAsync (client : MClient) (config : IImportConfig)
    (contentTypes : List ContentTypeContract) (st : TraceState) :
    Except String (List IImportItemResult) × TraceState :=
  importContentTypesGo client config contentTypes [] st

/-- Loop body of `importContentItemAsync`: validates the type codename before any
remote call, then creates the item referencing its content type by codename. -/
def importContentItemGo (client : MClient) (config : IImportConfig) :
    List ContentItemContract → List IImportItemResult → TraceState →
    Except String (List IImportItemResult) × TraceState
  | [], importedItems, st => (Except.ok importedItems, st)
  | contentItem :: rest, importedItems, st =>
    if falsyOptStr contentItem.type_codename then
      (Except.error ("Content item '" ++ contentItem.codename ++ "' has unset type codename"),
        st)
    else
      let data : AddContentItemData :=
        { name := contentItem.name
          type := Reference.byCodename (contentItem.type_codename.getD "")
          codename := contentItem.codename
          external_id := contentItem.external_id }
      let st1 := emitCall st (RemoteCall.addContentItem data)
      match client.addContentItem data with
      | Except.error e => (Except.error e, st1)
      | Except.ok model =>
        let st2 := processItemCb config model.name ItemType.contentItem
          (ValidImportModel.contentItem model) st1
        importContentItemGo client config rest
          (importedItems ++
            [{ imported := ValidImportModel.contentItem model
               original := ValidImportContract.contentItem contentItem
               importId := model.id
               originalId := contentItem.id }]) st2

/-- `ImportService.importContentItemAsync`. -/
def importContentItemAsync (client : MClient) (config : IImportConfig)
    (contentItems : List ContentItemContract) (st : TraceState) :
    Except String (List IImportItemResult) × TraceState :=
  importContentItemGo client config contentItems [] st

/-- Translate one source-side id through the accumulated results: the import id of
the first prior result whose `originalId` matches, otherwise the id unchanged. -/
def translateId (currentItems : List IImportItemResult) (id : String) : String :=
  match currentItems.find? (fun r => r.originalId == id) with
  | some r => r.importId
  | none => id

/-- Modelled from the spec: `idTranslateHelper.replaceIdReferencesWithNewId` lives in
the `core` module, whose source is not provided.  Per the Reference Rewriter
contract it walks the payload and replaces every embedded source-side id that
matches the `originalId` of a prior import result with that result's `importId`:
the item and language back-pointers, the workflow-step pointer, and the ids
embedded in element values. -/
def replaceIdReferencesWithNewId (languageVariant : LanguageVariantContract)
    (currentItems : List IImportItemResult) : LanguageVariantContract :=
  { item := { languageVariant.item with
      id := translateId currentItems languageVariant.item.id }
    language := { languageVariant.language with
      id := translateId currentItems languageVariant.language.id }
    workflow_step := { id := translateId currentItems languageVariant.workflow_step.id }
    elements := languageVariant.elements.map fun e =>
      { e with value_refs := e.value_refs.map (translateId currentItems) } }

/-- Loop body of `importLanguageVariantsAsync`: validates both codenames before any
remote call, rewrites id references against the accumulated results, overwrites the
workflow step id with the configured default (the source mutates the payload in
place, so the recorded `original` is the rewritten payload), and upserts by the
(item codename, language codename) pair. -/
def importLanguageVariantsGo (client : MClient) (config : IImportConfig)
    (currentItems : List IImportItemResult) :
    List LanguageVariantContract → List IImportItemResult → TraceState →
    Except String (List IImportItemResult) × TraceState
  | [], importedItems, st => (Except.ok importedItems, st)
  | languageVariant :: rest, importedItems, st =>
    if falsyOptStr languageVariant.item.codename then
      (Except.error "Missing item codename for item", st)
    else if falsyOptStr languageVariant.language.codename then
      (Except.error "Missing language codename for item", st)
    else
      let itemCodename := languageVariant.item.codename.getD ""
      let languageCodename := languageVariant.language.codename.getD ""
      let translated := replaceIdReferencesWithNewId languageVariant currentItems
      let mutated : LanguageVariantContract :=
        { translated with workflow_step := { id := config.workflowIdForImportedItems } }
      let st1 := emitCall st
        (RemoteCall.upsertLanguageVariant itemCodename languageCodename mutated.elements)
      match client.upsertLanguageVariant itemCodename languageCodename mutated.elements with
      | Except.error e => (Except.error e, st1)
      | Except.ok model =>
        let st2 := processItemCb config (itemCodename ++ " (" ++ languageCodename ++ ")")
          ItemType.languageVariant (ValidImportModel.languageVariant model) st1
        importLanguageVariantsGo client config currentItems rest
          (importedItems ++
            [{ imported := ValidImportModel.languageVariant model
               original := ValidImportContract.languageVariant mutated
               importId := model.item.id
               originalId := mutated.item.id }]) st2

/-- `ImportService.importLanguageVariantsAsync`. -/
def importLanguageVariantsAsync (client : MClient) (config : IImportConfig)
    (languageVariants : List LanguageVariantContract)
    (currentItems : List IImportItemResult) (st : TraceState) :
    Except String (List IImportItemResult) × TraceState :=
  importLanguageVariantsGo client config currentItems languageVariants [] st

/-- Loop body of `importContentTypeSnippetsAsync`: forwards the contract unchanged. -/
def importContentTypeSnippetsGo (client : MClient) (config : IImportConfig) :
    List ContentTypeSnippetContract → List IImportItemResult → TraceState →
    Except String (List IImportItemResult) × TraceState
  | [], importedItems, st => (Except.ok importedItems, st)
  | contentTypeSnippet :: rest, importedItems, st =>
    let st1 := emitCall st (RemoteCall.addContentTypeSnippet contentTypeSnippet)
    match client.addContentTypeSnippet contentTypeSnippet with
    | Except.error e => (Except.error e, st1)
    | Except.ok model =>
      let st2 := processItemCb config model.name ItemType.contentTypeSnippet
        (ValidImportModel.contentTypeSnippet model) st1
      importContentTypeSnippetsGo client config rest
        (importedItems ++
          [{ imported := ValidImportModel.contentTypeSnippet model
             original := ValidImportContract.contentTypeSnippet contentTypeSnippet
             importId := model.id
             originalId := contentTypeSnippet.id }]) st2

/-- `ImportService.importContentTypeSnippetsAsync`. -/
def importContentTypeSnippetsAsync (client : MClient) (config : IImportConfig)
    (contentTypeSnippets : List ContentTypeSnippetContract) (st : TraceState) :
    Except String (List IImportItemResult) × TraceState :=
  importContentTypeSnippetsGo client config contentTypeSnippets [] st

/-- Loop body of `importTaxonomiesAsync`: forwards the contract unchanged. -/
def importTaxonomiesGo (client : MClient) (config : IImportConfig) :
    List TaxonomyContract → List IImportItemResult → TraceState →
    Except String (List IImportItemResult) × TraceState
  | [], importedItems, st => (Except.ok importedItems, st)
  | taxonomy :: rest, importedItems, st =>
    let st1 := emitCall st (RemoteCall.addTaxonomy taxonomy)
    match client.addTaxonomy taxonomy with
    | Except.error e => (Except.error e, st1)
    | Except.ok model =>
      let st2 := processItemCb config model.name ItemType.taxonomy
        (ValidImportModel.taxonomy model) st1
      importTaxonomiesGo client config rest
        (importedItems ++
          [{ imported := ValidImportModel.taxonomy model
             original := ValidImportContract.taxonomy taxonomy
             importId := model.id
             originalId := taxonomy.id }]) st2

/-- `ImportService.importTaxonomiesAsync`. -/
def importTaxonomiesAsync (client : MClient) (config : IImportConfig)
    (taxonomies : List TaxonomyContract) (st : TraceState) :
    Except String (List IImportItemResult) × TraceState :=
  importTaxonomiesGo client config taxonomies [] st

/-- One planner-ordered unit of work (`IPreparedImportItem`): a kind tag (a plain
string in the source) and the payload. -/
structure IPreparedImportItem where
  type : String
  item : ValidImportContract
  deriving DecidableEq, Repr

/-- `ImportService.importItemAsync`: dispatches on the kind tag; `language` items
are skipped wholesale when `config.skip?.languages === true`; an unknown tag
throws without touching the remote API.  In the TypeScript source the payload is
`any` and always matches its tag, so the mismatch branches are unreachable for
well-formed prepared items. -/
def importItemAsync (client : MClient) (config : IImportConfig)
    (item : IPreparedImportItem) (binaryFiles : List IBinaryFile)
    (currentItems : List IImportItemResult) (st : TraceState) :
    Except String (List IImportItemResult) × TraceState :=
  if item.type == "contentType" then
    match item.item with
    | ValidImportContract.contentType c => importContentTypesAsync client config [c] st
    | _ => (Except.error ("Payload does not match type tag '" ++ item.type ++ "'"), st)
  else if item.type == "taxonomy" then
    match item.item with
    | ValidImportContract.taxonomy c => importTaxonomiesAsync client config [c] st
    | _ => (Except.error ("Payload does not match type tag '" ++ item.type ++ "'"), st)
  else if item.type == "contentTypeSnippet" then
    match item.item with
    | ValidImportContract.contentTypeSnippet c =>
      importContentTypeSnippetsAsync client config [c] st
    | _ => (Except.error ("Payload does not match type tag '" ++ item.type ++ "'"), st)
  else if item.type == "contentItem" then
    match item.item with
    | ValidImportContract.contentItem c => importContentItemAsync client config [c] st
    | _ => (Except.error ("Payload does not match type tag '" ++ item.type ++ "'"), st)
  else if item.type == "languageVariant" then
    match item.item with
    | ValidImportContract.languageVariant c =>
      importLanguageVariantsAsync client config [c] currentItems st
    | _ => (Except.error ("Payload does not match type tag '" ++ item.type ++ "'"), st)
  else if item.type == "language" then
    if config.skipLanguages then
      (Except.ok [], st)
    else
      match item.item with
      | ValidImportContract.language c => importLanguagesAsync client config [c] st
      | _ => (Except.error ("Payload does not match type tag '" ++ item.type ++ "'"), st)
  else if item.type == "asset" then
    match item.item with
    | ValidImportContract.asset c => importAssetsAsync client config [c] binaryFiles st
    | _ => (Except.error ("Payload does not match type tag '" ++ item.type ++ "'"), st)
  else
    (Except.error ("Not supported import data type '" ++ item.type ++ "'"), st)

/-- Input bundle of `importAsync` (`IImportData`). -/
structure IImportData where
  orderedImportItems : List IPreparedImportItem
  binaryFiles : List IBinaryFile
  deriving Repr

/-- Loop of `ImportService.importAsync`: items processed strictly in order, each
given the accumulated results of all strictly earlier items; a thrown error
propagates, discarding the locally accumulated result list. -/
def importAsyncGo (client : MClient) (config : IImportConfig)
    (binaryFiles : List IBinaryFile) :
    List IPreparedImportItem → List IImportItemResult → TraceState →
    Except String (List IImportItemResult) × TraceState
  | [], importedItems, st => (Except.ok importedItems, st)
  | item :: rest, importedItems, st =>
    match importItemAsync client config item binaryFiles importedItems st with
    | (Except.error e, st1) => (Except.error e, st1)
    | (Except.ok importedItem, st1) =>
      importAsyncGo client config binaryFiles rest (importedItems ++ importedItem) st1

/-- `ImportService.importAsync`. -/
def importAsync (client : MClient) (config : IImportConfig) (importData : IImportData)
    (st : TraceState) : Except String (List IImportItemResult) × TraceState :=
  importAsyncGo client config importData.binaryFiles importData.orderedImportItems [] st

/-- Display title reported to the progress callback for one result, by kind
(`name` for most kinds, `fileName` for assets, the codename pair for variants). -/
def displayTitle (r : IImportItemResult) : String :=
  match r.imported, r.original with
  | ValidImportModel.language m, _ => m.name
  | ValidImportModel.asset m, _ => m.fileName
  | ValidImportModel.contentType m, _ => m.name
  | ValidImportModel.contentItem m, _ => m.name
  | ValidImportModel.contentTypeSnippet m, _ => m.name
  | ValidImportModel.taxonomy m, _ => m.name
  | ValidImportModel.languageVariant _, ValidImportContract.languageVariant v =>
    v.item.codename.getD "" ++ " (" ++ v.language.codename.getD "" ++ ")"
  | ValidImportModel.languageVariant _, _ => ""

/-- Kind tag of one result, read off the imported model. -/
def kindOf (r : IImportItemResult) : ItemType :=
  match r.imported with
  | ValidImportModel.language _ => ItemType.language
  | ValidImportModel.asset _ => ItemType.asset
  | ValidImportModel.contentType _ => ItemType.contentType
  | ValidImportModel.contentItem _ => ItemType.contentItem
  | ValidImportModel.languageVariant _ => ItemType.languageVariant
  | ValidImportModel.contentTypeSnippet _ => ItemType.contentTypeSnippet
  | ValidImportModel.taxonomy _ => ItemType.taxonomy

/-- Progress-callback invocation expected for one successful result. -/
def expectedCb (r : IImportItemResult) : CallbackInvocation :=
  { title := displayTitle r, type := kindOf r, data := r.imported }

/-- Workflow-step id recorded in a result's original payload, when it is a variant. -/
def originalVariantWorkflowId (r : IImportItemResult) : Option String :=
  match r.original with
  | ValidImportContract.languageVariant v => some v.workflow_step.id
  | _ => none

/-- Sequential decomposition of the orchestrator loop: the items of `l1` are fully
processed, in order, before any item of `l2`, and the results accumulated over `l1`
are exactly what the processing of `l2` starts from; an error in `l1` short-circuits. -/
theorem importAsyncGo_append (client : MClient) (config : IImportConfig)
    (binaryFiles : List IBinaryFile) (l1 l2 : List IPreparedImportItem)
    (acc : List IImportItemResult) (st : TraceState) :
    importAsyncGo client config binaryFiles (l1 ++ l2) acc st =
      match importAsyncGo client config binaryFiles l1 acc st with
      | (Except.ok res1, st1) => importAsyncGo client config binaryFiles l2 res1 st1
      | (Except.error e, st1) => (Except.error e, st1) := by
  induction l1 generalizing acc st with
  | nil => simp [importAsyncGo]
  | cons item rest ih =>
    simp only [List.cons_append, importAsyncGo]
    cases h : importItemAsync client config item binaryFiles acc st with
    | mk r st1 =>
      cases r with
      | error e => simp
      | ok newItems => simp [ih]
theorem importTaxonomiesAsync_cbs (client : MClient) (config : IImportConfig)
    (t : TaxonomyContract) (st : TraceState) (res : List IImportItemResult)
    (st' : TraceState) (hen : config.processItemEnabled = true)
    (h : importTaxonomiesAsync client config [t] st = (Except.ok res, st')) :
    st'.cbs = st.cbs ++ res.map expectedCb := by
  simp only [importTaxonomiesAsync, importTaxonomiesGo] at h
  split at h
  · exact absurd h (by simp)
  · simp only [Prod.mk.injEq, Except.ok.injEq] at h
    obtain ⟨hres, hst⟩ := h
    subst hres hst
    simp [processItemCb, emitCall, hen, expectedCb, displayTitle, kindOf]

theorem importContentTypesAsync_cbs (client : MClient) (config : IImportConfig)
    (c : ContentTypeContract) (st : TraceState) (res : List IImportItemResult)
    (st' : TraceState) (hen : config.processItemEnabled = true)
    (h : importContentTypesAsync client config [c] st = (Except.ok res, st')) :
    st'.cbs = st.cbs ++ res.map expectedCb := by
  simp only [importContentTypesAsync, importContentTypesGo] at h
  split at h
  · exact absurd h (by simp)
  · simp only [Prod.mk.injEq, Except.ok.injEq] at h
    obtain ⟨hres, hst⟩ := h
    subst hres hst
    simp [processItemCb, emitCall, hen, expectedCb, displayTitle, kindOf]

theorem importContentTypeSnippetsAsync_cbs (client : MClient) (config : IImportConfig)
    (c : ContentTypeSnippetContract) (st : TraceState) (res : List IImportItemResult)
    (st' : TraceState) (hen : config.processItemEnabled = true)
    (h : importContentTypeSnippetsAsync client config [c] st = (Except.ok res, st')) :
    st'.cbs = st.cbs ++ res.map expectedCb := by
  simp only [importContentTypeSnippetsAsync, importContentTypeSnippetsGo] at h
  split at h
  · exact absurd h (by simp)
  · simp only [Prod.mk.injEq, Except.ok.injEq] at h
    obtain ⟨hres, hst⟩ := h
    subst hres hst
    simp [processItemCb, emitCall, hen, expectedCb, displayTitle, kindOf]

theorem importContentItemAsync_cbs (client : MClient) (config : IImportConfig)
    (c : ContentItemContract) (st : TraceState) (res : List IImportItemResult)
    (st' : TraceState) (hen : config.processItemEnabled = true)
    (h : importContentItemAsync client config [c] st = (Except.ok res, st')) :
    st'.cbs = st.cbs ++ res.map expectedCb := by
  simp only [importContentItemAsync, importContentItemGo] at h
  split at h
  · exact absurd h (by simp)
  · split at h
    · exact absurd h (by simp)
    · simp only [Prod.mk.injEq, Except.ok.injEq] at h
      obtain ⟨hres, hst⟩ := h
      subst hres hst
      simp [processItemCb, emitCall, hen, expectedCb, displayTitle, kindOf]

theorem importAssetsAsync_cbs (client : MClient) (config : IImportConfig)
    (a : AssetContract) (binaryFiles : List IBinaryFile) (st : TraceState)
    (res : List IImportItemResult) (st' : TraceState)
    (hen : config.processItemEnabled = true)
    (h : importAssetsAsync client config [a] binaryFiles st = (Except.ok res, st')) :
    st'.cbs = st.cbs ++ res.map expectedCb := by
  simp only [importAssetsAsync, importAssetsGo] at h
  split at h
  · exact absurd h (by simp)
  · split at h
    · exact absurd h (by simp)
    · split at h
      · exact absurd h (by simp)
      · simp only [Prod.mk.injEq, Except.ok.injEq] at h
        obtain ⟨hres, hst⟩ := h
        subst hres hst
        simp [processItemCb, emitCall, hen, expectedCb, displayTitle, kindOf]

theorem importLanguageVariantsAsync_cbs (client : MClient) (config : IImportConfig)
    (v : LanguageVariantContract) (currentItems : List IImportItemResult)
    (st : TraceState) (res : List IImportItemResult) (st' : TraceState)
    (hen : config.processItemEnabled = true)
    (h : importLanguageVariantsAsync client config [v] currentItems st = (Except.ok res, st')) :
    st'.cbs = st.cbs ++ res.map expectedCb := by
  simp only [importLanguageVariantsAsync, importLanguageVariantsGo] at h
  split at h
  · exact absurd h (by simp)
  · split at h
    · exact absurd h (by simp)
    · split at h
      · exact absurd h (by simp)
      · simp only [Prod.mk.injEq, Except.ok.injEq] at h
        obtain ⟨hres, hst⟩ := h
        subst hres hst
        simp [processItemCb, emitCall, hen, expectedCb, displayTitle, kindOf,
          replaceIdReferencesWithNewId]

theorem importLanguagesAsync_cbs (client : MClient) (config : IImportConfig)
    (l : LanguageContract) (st : TraceState) (res : List IImportItemResult)
    (st' : TraceState) (hen : config.processItemEnabled = true)
    (h : importLanguagesAsync client config [l] st = (Except.ok res, st')) :
    st'.cbs = st.cbs ++ res.map expectedCb := by
  simp only [importLanguagesAsync, importLanguagesGo] at h
  split at h
  · exact absurd h (by simp)
  · split at h
    · exact absurd h (by simp)
    · simp only [Prod.mk.injEq, Except.ok.injEq] at h
      obtain ⟨hres, hst⟩ := h
      subst hres hst
      simp [processItemCb, emitCall, hen, expectedCb, displayTitle, kindOf]
theorem importItemAsync_cbs (client : MClient) (config : IImportConfig)
    (item : IPreparedImportItem) (binaryFiles : List IBinaryFile)
    (currentItems : List IImportItemResult) (st : TraceState)
    (newItems : List IImportItemResult) (st' : TraceState)
    (hen : config.processItemEnabled = true)
    (h : importItemAsync client config item binaryFiles currentItems st =
      (Except.ok newItems, st')) :
    st'.cbs = st.cbs ++ newItems.map expectedCb := by
  simp only [importItemAsync] at h
  repeat' split at h
  all_goals first
    | exact importContentTypesAsync_cbs _ _ _ _ _ _ hen h
    | exact importTaxonomiesAsync_cbs _ _ _ _ _ _ hen h
    | exact importContentTypeSnippetsAsync_cbs _ _ _ _ _ _ hen h
    | exact importContentItemAsync_cbs _ _ _ _ _ _ hen h
    | exact importLanguageVariantsAsync_cbs _ _ _ _ _ _ _ hen h
    | exact importLanguagesAsync_cbs _ _ _ _ _ _ hen h
    | exact importAssetsAsync_cbs _ _ _ _ _ _ _ hen h
    | (simp only [Prod.mk.injEq] at h
       obtain ⟨h1, h2⟩ := h
       first
         | exact Except.noConfusion h1
         | (injection h1 with h3
            subst h3
            subst h2
            simp))
/-- Test client for concrete runs: every remote operation succeeds with canned data. -/
def testClient : MClient :=
  { addLanguage := fun d => Except.ok { id := "lang-target", name := d.name }
    uploadBinaryFile := fun d => Except.ok { id := "file-" ++ d.filename }
    addAsset := fun d => Except.ok { id := "asset-target", fileName := d.title }
    addContentType := fun d => Except.ok { id := "type-target", name := d.body }
    addContentItem := fun d => Except.ok { id := "item-target", name := d.name }
    upsertLanguageVariant := fun ic lc _ =>
      Except.ok { item := { id := "variant-item-" ++ ic ++ "-" ++ lc } }
    addContentTypeSnippet := fun d => Except.ok { id := "snippet-target", name := d.body }
    addTaxonomy := fun d => Except.ok { id := "taxonomy-target", name := d.body } }

/-- Test configuration for concrete runs. -/
def testConfig : IImportConfig :=
  { workflowIdForImportedItems := "wf-default"
    skipLanguages := false
    processItemEnabled := true }

/-- Empty trace to start concrete runs from. -/
def emptyTrace : TraceState := { calls := [], cbs := [] }

/-- Concrete language whose fallback codename equals its own codename. -/
def selfFallbackLang : LanguageContract :=
  { id := "src-lang-a"
    name := "Lang A"
    codename := "lang_a"
    external_id := none
    fallback_language_codename := some "lang_a"
    is_active := true }

/-- Concrete content item with an unset type codename. -/
def itemNoType : ContentItemContract :=
  { id := "src-item-b"
    name := "Item B"
    codename := "item_b"
    external_id := none
    type_codename := none }

/-- Concrete taxonomy contract. -/
def taxD : TaxonomyContract := { id := "src-tax-d", body := "Tax D" }

/-- Concrete language variant with a source-side workflow step id. -/
def variantV : LanguageVariantContract :=
  { item := { id := "src-item-b", codename := some "item_b" }
    language := { id := "src-lang-a", codename := some "lang_a" }
    workflow_step := { id := "src-wf" }
    elements := [{ element_id := "e1", value_refs := ["src-item-b", "unrelated"] }] }

/-- Concrete asset contract. -/
def assetA : AssetContract :=
  { id := "src-asset-a"
    file_name := "a.png"
    title := "Asset A"
    external_id := none
    type := "image/png"
    descriptions := "desc" }

/-- Import result produced by `testClient` for `selfFallbackLang`. -/
def langAResult : IImportItemResult :=
  { imported := ValidImportModel.language { id := "lang-target", name := "Lang A" }
    original := ValidImportContract.language selfFallbackLang
    importId := "lang-target"
    originalId := "src-lang-a" }

/-- Trace left by importing `selfFallbackLang` through `testClient`. -/
def langATrace : TraceState :=
  { calls := [RemoteCall.addLanguage
      { codename := "lang_a"
        name := "Lang A"
        external_id := none
        fallback_language := Reference.byId "00000000-0000-0000-0000-000000000000"
        is_active := true }]
    cbs := [{ title := "Lang A"
              type := ItemType.language
              data := ValidImportModel.language { id := "lang-target", name := "Lang A" } }] }

/-- Import result produced by `testClient` for `taxD`. -/
def taxDResult : IImportItemResult :=
  { imported := ValidImportModel.taxonomy { id := "taxonomy-target", name := "Tax D" }
    original := ValidImportContract.taxonomy taxD
    importId := "taxonomy-target"
    originalId := "src-tax-d" }

/-- Trace left by importing `taxD` through `testClient`. -/
def taxDTrace : TraceState :=
  { calls := [RemoteCall.addTaxonomy taxD]
    cbs := [{ title := "Tax D"
              type := ItemType.taxonomy
              data := ValidImportModel.taxonomy { id := "taxonomy-target", name := "Tax D" } }] }

/-- A prior content item result against which `variantV` references are rewritten. -/
def itemBResult : IImportItemResult :=
  { imported := ValidImportModel.contentItem { id := "item-target", name := "Item B" }
    original := ValidImportContract.contentItem itemNoType
    importId := "item-target"
    originalId := "src-item-b" }

/-- The payload of `variantV` after in-place rewriting against `itemBResult` under
`testConfig`: the item back-pointer and the embedded element reference are
translated and the workflow step id is overwritten with the configured default. -/
def mutatedVariantV : LanguageVariantContract :=
  { item := { id := "item-target", codename := some "item_b" }
    language := { id := "src-lang-a", codename := some "lang_a" }
    workflow_step := { id := "wf-default" }
    elements := [{ element_id := "e1", value_refs := ["item-target", "unrelated"] }] }

/-- Import result produced by `testClient` for `variantV` given `itemBResult`. -/
def variantVResult : IImportItemResult :=
  { imported := ValidImportModel.languageVariant { item := { id := "variant-item-item_b-lang_a" } }
    original := ValidImportContract.languageVariant mutatedVariantV
    importId := "variant-item-item_b-lang_a"
    originalId := "item-target" }

/-- Binary payload joined to `assetA`. -/
def binA : IBinaryFile := { asset := assetA, binaryData := "bytes" }
/-- Claim C3: for a language payload with a resolvable fallback codename, the
create-language request carries the reserved zero-GUID sentinel as the fallback
when the fallback codename equals the language's own codename, and carries the
fallback by codename otherwise; `importLanguagesAsync` takes no accumulated
results, so no Translation Table lookup is possible. -/
theorem importLanguagesAsync_fallback_request (client : MClient) (config : IImportConfig)
    (language : LanguageContract) (st : TraceState)
    (h : falsyOptStr language.fallback_language_codename = false) :
    (importLanguagesAsync client config [language] st).2.calls =
      st.calls ++
        [RemoteCall.addLanguage
          { codename := language.codename
            name := language.name
            external_id := language.external_id
            fallback_language :=
              if language.codename == language.fallback_language_codename.getD "" then
                Reference.byId "00000000-0000-0000-0000-000000000000"
              else
                Reference.byCodename (language.fallback_language_codename.getD "")
            is_active := language.is_active }] := by
  simp only [importLanguagesAsync, importLanguagesGo, h, Bool.false_eq_true, if_false]
  split
  · simp [emitCall]
  · simp only [importLanguagesGo]
    simp [processItemCb, emitCall]
    split
    · rfl
    · rfl

/-- Claim C5: a language variant with a missing item codename or language codename
fails before any remote call; when both are present the single issued call is an
upsert addressed by the (item codename, language codename) pair — the request
carries the codename pair and the rewritten elements, no target id. -/
theorem importLanguageVariantsAsync_codename_addressing :
    (∀ (client : MClient) (config : IImportConfig) (v : LanguageVariantContract)
       (cur : List IImportItemResult) (st : TraceState),
       falsyOptStr v.item.codename = true →
       importLanguageVariantsAsync client config [v] cur st =
         (Except.error "Missing item codename for item", st)) ∧
    (∀ (client : MClient) (config : IImportConfig) (v : LanguageVariantContract)
       (cur : List IImportItemResult) (st : TraceState),
       falsyOptStr v.item.codename = false →
       falsyOptStr v.language.codename = true →
       importLanguageVariantsAsync client config [v] cur st =
         (Except.error "Missing language codename for item", st)) ∧
    (∀ (client : MClient) (config : IImportConfig) (v : LanguageVariantContract)
       (cur : List IImportItemResult) (st : TraceState),
       falsyOptStr v.item.codename = false →
       falsyOptStr v.language.codename = false →
       (importLanguageVariantsAsync client config [v] cur st).2.calls =
         st.calls ++
           [RemoteCall.upsertLanguageVariant (v.item.codename.getD "")
             (v.language.codename.getD "")
             (replaceIdReferencesWithNewId v cur).elements]) := by
  refine ⟨?_, ?_, ?_⟩
  · intro client config v cur st h
    simp [importLanguageVariantsAsync, importLanguageVariantsGo, h]
  · intro client config v cur st h1 h2
    simp [importLanguageVariantsAsync, importLanguageVariantsGo, h1, h2]
  · intro client config v cur st h1 h2
    simp only [importLanguageVariantsAsync, importLanguageVariantsGo, h1, h2,
      Bool.false_eq_true, if_false]
    split
    · simp [emitCall]
    · simp only [importLanguageVariantsGo]
      simp [processItemCb, emitCall]
      split
      · rfl
      · rfl

/-- Claim C6: on a successful language variant import the recorded (in-place
rewritten) payload carries the caller-configured default workflow step id,
whatever workflow step the source captured. -/
theorem importLanguageVariantsAsync_workflow_default (client : MClient)
    (config : IImportConfig) (v : LanguageVariantContract)
    (cur : List IImportItemResult) (st : TraceState) (r : IImportItemResult)
    (st' : TraceState)
    (h : importLanguageVariantsAsync client config [v] cur st = (Except.ok [r], st')) :
    originalVariantWorkflowId r = some config.workflowIdForImportedItems := by
  simp only [importLanguageVariantsAsync, importLanguageVariantsGo] at h
  split at h
  · exact absurd h (by simp)
  · split at h
    · exact absurd h (by simp)
    · split at h
      · exact absurd h (by simp)
      · simp only [importLanguageVariantsGo, Prod.mk.injEq, Except.ok.injEq] at h
        obtain ⟨hres, hst⟩ := h
        simp only [List.nil_append, List.cons.injEq] at hres
        obtain ⟨hr, -⟩ := hres
        subst hr
        simp [originalVariantWorkflowId]

/-- Claim C7: a content item with an unset type codename fails before any remote
call; otherwise the single issued create request references the content type by
that codename (a codename reference, not an id). -/
theorem importContentItemAsync_type_codename :
    (∀ (client : MClient) (config : IImportConfig) (ci : ContentItemContract)
       (st : TraceState),
       falsyOptStr ci.type_codename = true →
       importContentItemAsync client config [ci] st =
         (Except.error ("Content item '" ++ ci.codename ++ "' has unset type codename"),
           st)) ∧
    (∀ (client : MClient) (config : IImportConfig) (ci : ContentItemContract)
       (st : TraceState),
       falsyOptStr ci.type_codename = false →
       (importContentItemAsync client config [ci] st).2.calls =
         st.calls ++
           [RemoteCall.addContentItem
             { name := ci.name
               type := Reference.byCodename (ci.type_codename.getD "")
               codename := ci.codename
               external_id := ci.external_id }]) := by
  constructor
  · intro client config ci st h
    simp [importContentItemAsync, importContentItemGo, h]
  · intro client config ci st h
    simp only [importContentItemAsync, importContentItemGo, h, Bool.false_eq_true, if_false]
    split
    · simp [emitCall]
    · simp only [importContentItemGo]
      simp [processItemCb, emitCall]
      split
      · rfl
      · rfl
/-- Claim C4: an asset without a matching binary payload for its source id fails
with an error and an unchanged trace, so before any remote call; with a matching
binary the first issued call uploads the raw bytes and, when the upload succeeds,
the second creates the asset metadata carrying the returned file reference. -/
theorem importAssetsAsync_binary_join :
    (∀ (client : MClient) (config : IImportConfig) (asset : AssetContract)
       (binaryFiles : List IBinaryFile) (st : TraceState),
       binaryFiles.find? (fun m => m.asset.id == asset.id) = none →
       importAssetsAsync client config [asset] binaryFiles st =
         (Except.error ("Could not find binary file for asset with id '" ++ asset.id ++ "'"),
           st)) ∧
    (∀ (client : MClient) (config : IImportConfig) (asset : AssetContract)
       (binaryFiles : List IBinaryFile) (st : TraceState) (b : IBinaryFile),
       binaryFiles.find? (fun m => m.asset.id == asset.id) = some b →
       (importAssetsAsync client config [asset] binaryFiles st).2.calls =
         st.calls ++
           (RemoteCall.uploadBinaryFile
               { binaryData := b.binaryData
                 contentType := asset.type
                 filename := asset.file_name } ::
             match client.uploadBinaryFile
                 { binaryData := b.binaryData
                   contentType := asset.type
                   filename := asset.file_name } with
             | Except.ok fr =>
               [RemoteCall.addAsset
                 { descriptions := asset.descriptions
                   file_reference := fr
                   title := asset.title
                   external_id := asset.external_id }]
             | Except.error _ => [])) := by
  constructor
  · intro client config asset binaryFiles st h
    simp [importAssetsAsync, importAssetsGo, h]
  · intro client config asset binaryFiles st b h
    simp only [importAssetsAsync, importAssetsGo, h]
    split
    next e heq =>
      simp [emitCall, heq]
    next fr heq =>
      split
      next e2 heq2 =>
        simp [emitCall, heq]
      next model heq2 =>
        simp only [importAssetsGo]
        simp [processItemCb, emitCall, heq]
        split
        · rfl
        · rfl

/-- Claim C9: an item whose kind tag is none of the seven supported kinds makes
`importItemAsync` throw an error naming the tag, with an unchanged trace (no
remote call, no callback); at the orchestrator loop the error propagates and the
accumulated result sequence is not extended. -/
theorem importItemAsync_unsupported_type (client : MClient) (config : IImportConfig)
    (t : String) (payload : ValidImportContract) (bf : List IBinaryFile)
    (cur : List IImportItemResult) (rest : List IPreparedImportItem) (st : TraceState)
    (h1 : t ≠ "contentType") (h2 : t ≠ "taxonomy") (h3 : t ≠ "contentTypeSnippet")
    (h4 : t ≠ "contentItem") (h5 : t ≠ "languageVariant") (h6 : t ≠ "language")
    (h7 : t ≠ "asset") :
    importItemAsync client config ⟨t, payload⟩ bf cur st =
        (Except.error ("Not supported import data type '" ++ t ++ "'"), st) ∧
      importAsyncGo client config bf (⟨t, payload⟩ :: rest) cur st =
        (Except.error ("Not supported import data type '" ++ t ++ "'"), st) := by
  have hi : importItemAsync client config ⟨t, payload⟩ bf cur st =
      (Except.error ("Not supported import data type '" ++ t ++ "'"), st) := by
    simp [importItemAsync, h1, h2, h3, h4, h5, h6, h7]
  refine ⟨hi, ?_⟩
  simp only [importAsyncGo, hi]

/-- Claim C10: with `skip.languages` set, a language item contributes no result and
leaves the trace untouched (no remote call), while an item of any other kind is
processed exactly as it would be with the flag unset. -/
theorem importItemAsync_skip_languages :
    (∀ (client : MClient) (config : IImportConfig) (lang : LanguageContract)
       (bf : List IBinaryFile) (cur : List IImportItemResult) (st : TraceState),
       config.skipLanguages = true →
       importItemAsync client config ⟨"language", ValidImportContract.language lang⟩
           bf cur st =
         (Except.ok [], st)) ∧
    (∀ (client : MClient) (config : IImportConfig) (b : Bool)
       (item : IPreparedImportItem) (bf : List IBinaryFile)
       (cur : List IImportItemResult) (st : TraceState),
       item.type ≠ "language" →
       importItemAsync client { config with skipLanguages := b } item bf cur st =
         importItemAsync client config item bf cur st) := by
  constructor
  · intro client config lang bf cur st h
    simp [importItemAsync, h]
  · intro client config b item bf cur st hne
    have hlang : (item.type == "language") = false := by
      simpa using hne
    simp only [importItemAsync, hlang, Bool.false_eq_true, if_false,
      importContentTypesAsync, importTaxonomiesAsync, importContentTypeSnippetsAsync,
      importContentItemAsync, importLanguageVariantsAsync, importAssetsAsync]
    repeat' split
    all_goals rfl
theorem importLanguagesAsync_original (client : MClient) (config : IImportConfig)
    (c : LanguageContract) (st : TraceState) (res : List IImportItemResult)
    (st' : TraceState)
    (h : importLanguagesAsync client config [c] st = (Except.ok res, st')) :
    ∀ r ∈ res, r.original = ValidImportContract.language c := by
  simp only [importLanguagesAsync, importLanguagesGo] at h
  split at h
  · exact absurd h (by simp)
  · split at h
    · exact absurd h (by simp)
    · simp only [Prod.mk.injEq, Except.ok.injEq] at h
      obtain ⟨hres, -⟩ := h
      subst hres
      intro r hr
      simp at hr
      subst hr
      rfl

theorem importAssetsAsync_original (client : MClient) (config : IImportConfig)
    (c : AssetContract) (bf : List IBinaryFile) (st : TraceState)
    (res : List IImportItemResult) (st' : TraceState)
    (h : importAssetsAsync client config [c] bf st = (Except.ok res, st')) :
    ∀ r ∈ res, r.original = ValidImportContract.asset c := by
  simp only [importAssetsAsync, importAssetsGo] at h
  split at h
  · exact absurd h (by simp)
  · split at h
    · exact absurd h (by simp)
    · split at h
      · exact absurd h (by simp)
      · simp only [Prod.mk.injEq, Except.ok.injEq] at h
        obtain ⟨hres, -⟩ := h
        subst hres
        intro r hr
        simp at hr
        subst hr
        rfl

theorem importContentTypesAsync_original (client : MClient) (config : IImportConfig)
    (c : ContentTypeContract) (st : TraceState) (res : List IImportItemResult)
    (st' : TraceState)
    (h : importContentTypesAsync client config [c] st = (Except.ok res, st')) :
    ∀ r ∈ res, r.original = ValidImportContract.contentType c := by
  simp only [importContentTypesAsync, importContentTypesGo] at h
  split at h
  · exact absurd h (by simp)
  · simp only [Prod.mk.injEq, Except.ok.injEq] at h
    obtain ⟨hres, -⟩ := h
    subst hres
    intro r hr
    simp at hr
    subst hr
    rfl

theorem importContentItemAsync_original (client : MClient) (config : IImportConfig)
    (c : ContentItemContract) (st : TraceState) (res : List IImportItemResult)
    (st' : TraceState)
    (h : importContentItemAsync client config [c] st = (Except.ok res, st')) :
    ∀ r ∈ res, r.original = ValidImportContract.contentItem c := by
  simp only [importContentItemAsync, importContentItemGo] at h
  split at h
  · exact absurd h (by simp)
  · split at h
    · exact absurd h (by simp)
    · simp only [Prod.mk.injEq, Except.ok.injEq] at h
      obtain ⟨hres, -⟩ := h
      subst hres
      intro r hr
      simp at hr
      subst hr
      rfl

theorem importContentTypeSnippetsAsync_original (client : MClient)
    (config : IImportConfig) (c : ContentTypeSnippetContract) (st : TraceState)
    (res : List IImportItemResult) (st' : TraceState)
    (h : importContentTypeSnippetsAsync client config [c] st = (Except.ok res, st')) :
    ∀ r ∈ res, r.original = ValidImportContract.contentTypeSnippet c := by
  simp only [importContentTypeSnippetsAsync, importContentTypeSnippetsGo] at h
  split at h
  · exact absurd h (by simp)
  · simp only [Prod.mk.injEq, Except.ok.injEq] at h
    obtain ⟨hres, -⟩ := h
    subst hres
    intro r hr
    simp at hr
    subst hr
    rfl

theorem importTaxonomiesAsync_original (client : MClient) (config : IImportConfig)
    (c : TaxonomyContract) (st : TraceState) (res : List IImportItemResult)
    (st' : TraceState)
    (h : importTaxonomiesAsync client config [c] st = (Except.ok res, st')) :
    ∀ r ∈ res, r.original = ValidImportContract.taxonomy c := by
  simp only [importTaxonomiesAsync, importTaxonomiesGo] at h
  split at h
  · exact absurd h (by simp)
  · simp only [Prod.mk.injEq, Except.ok.injEq] at h
    obtain ⟨hres, -⟩ := h
    subst hres
    intro r hr
    simp at hr
    subst hr
    rfl
/-- Claim C8 (amended): for every import item that is not a language variant, each
produced result records the input payload unchanged as `original`; for a language
variant, reference rewriting and workflow-step substitution are applied to the
payload in place, so the recorded `original` is the rewritten payload, not the
payload as captured from the source. -/
theorem import_payload_mutation :
    (∀ (client : MClient) (config : IImportConfig) (item : IPreparedImportItem)
       (bf : List IBinaryFile) (cur : List IImportItemResult) (st : TraceState)
       (newItems : List IImportItemResult) (st' : TraceState),
       item.type ≠ "languageVariant" →
       importItemAsync client config item bf cur st = (Except.ok newItems, st') →
       ∀ r ∈ newItems, r.original = item.item) ∧
    (∀ (client : MClient) (config : IImportConfig) (v : LanguageVariantContract)
       (cur : List IImportItemResult) (st : TraceState) (r : IImportItemResult)
       (st' : TraceState),
       importLanguageVariantsAsync client config [v] cur st = (Except.ok [r], st') →
       r.original = ValidImportContract.languageVariant
         { replaceIdReferencesWithNewId v cur with
             workflow_step := { id := config.workflowIdForImportedItems } }) := by
  constructor
  · intro client config item bf cur st newItems st' hne h
    have hlv : (item.type == "languageVariant") = false := by
      simpa using hne
    simp only [importItemAsync, hlv, Bool.false_eq_true, if_false] at h
    repeat' split at h
    all_goals first
      | (injection h with h1 h2
         first
           | exact Except.noConfusion h1
           | (injection h1 with h3
              subst h3
              intro r hr
              simp at hr))
      | (rename_i c heq
         rw [heq]
         first
           | exact importContentTypesAsync_original _ _ _ _ _ _ h
           | exact importTaxonomiesAsync_original _ _ _ _ _ _ h
           | exact importContentTypeSnippetsAsync_original _ _ _ _ _ _ h
           | exact importContentItemAsync_original _ _ _ _ _ _ h
           | exact importLanguagesAsync_original _ _ _ _ _ _ h
           | exact importAssetsAsync_original _ _ _ _ _ _ _ h)
  · intro client config v cur st r st' h
    simp only [importLanguageVariantsAsync, importLanguageVariantsGo] at h
    split at h
    · exact absurd h (by simp)
    · split at h
      · exact absurd h (by simp)
      · split at h
        · exact absurd h (by simp)
        · simp only [importLanguageVariantsGo, Prod.mk.injEq, Except.ok.injEq] at h
          obtain ⟨hres, -⟩ := h
          simp only [List.nil_append, List.cons.injEq] at hres
          obtain ⟨hr, -⟩ := hres
          subst hr
          rfl
/-- Claim C1 (amended): when the items strictly before some item all complete and
that item fails, the run halts there — the error and the trace of the failing item
are the run's outcome, the remaining items are never attempted — and the error is
propagated to the caller; the ImportResults of the completed prefix are discarded
by the propagating throw, not returned. -/
theorem importAsync_halts_at_first_error (client : MClient) (config : IImportConfig)
    (bf : List IBinaryFile) (pre : List IPreparedImportItem)
    (item : IPreparedImportItem) (rest : List IPreparedImportItem)
    (st0 st1 st2 : TraceState) (res1 : List IImportItemResult) (e : String)
    (hpre : importAsyncGo client config bf pre [] st0 = (Except.ok res1, st1))
    (hfail : importItemAsync client config item bf res1 st1 = (Except.error e, st2)) :
    importAsync client config
        { orderedImportItems := pre ++ item :: rest, binaryFiles := bf } st0 =
      (Except.error e, st2) := by
  simp only [importAsync]
  rw [importAsyncGo_append, hpre]
  simp only [importAsyncGo]
  rw [hfail]

/-- Counterexample to claim C1 as stated: running `[language A (ok), content item B
(unset type codename), taxonomy D (ok)]` propagates the validation error from B,
but the caller does not receive the ImportResult of the completed item A — the
outcome carries only the error, and the trace shows A's remote call was issued
while D was never attempted. -/
theorem importAsync_prefix_results_lost :
    importAsync testClient testConfig
        { orderedImportItems :=
            [{ type := "language", item := ValidImportContract.language selfFallbackLang },
             { type := "contentItem", item := ValidImportContract.contentItem itemNoType },
             { type := "taxonomy", item := ValidImportContract.taxonomy taxD }]
          binaryFiles := [] } emptyTrace =
        (Except.error "Content item 'item_b' has unset type codename", langATrace) ∧
      (importAsync testClient testConfig
          { orderedImportItems :=
              [{ type := "language", item := ValidImportContract.language selfFallbackLang },
               { type := "contentItem", item := ValidImportContract.contentItem itemNoType },
               { type := "taxonomy", item := ValidImportContract.taxonomy taxD }]
            binaryFiles := [] } emptyTrace).1 ≠
        Except.ok [langAResult] := by
  have he : importAsync testClient testConfig
      { orderedImportItems :=
          [{ type := "language", item := ValidImportContract.language selfFallbackLang },
           { type := "contentItem", item := ValidImportContract.contentItem itemNoType },
           { type := "taxonomy", item := ValidImportContract.taxonomy taxD }]
        binaryFiles := [] } emptyTrace =
      (Except.error "Content item 'item_b' has unset type codename", langATrace) := rfl
  refine ⟨he, ?_⟩
  intro hcontra
  rw [congrArg Prod.fst he] at hcontra
  exact Except.noConfusion hcontra

/-- Claim C2: the orchestrator processes items strictly in the given order —
splitting the ordered list anywhere, the first part is fully processed before the
second part starts, and the second part's accumulated-results argument is exactly
the result sequence of all strictly earlier items, so the final sequence is the
in-order concatenation of per-item results; moreover, whenever an item succeeds
with the progress callback configured, the callback is invoked once per produced
result with the item's display title, kind, and imported payload. -/
theorem importAsync_sequencing :
    (∀ (client : MClient) (config : IImportConfig) (bf : List IBinaryFile)
       (l1 l2 : List IPreparedImportItem) (acc : List IImportItemResult)
       (st : TraceState),
       importAsyncGo client config bf (l1 ++ l2) acc st =
         match importAsyncGo client config bf l1 acc st with
         | (Except.ok res1, st1) => importAsyncGo client config bf l2 res1 st1
         | (Except.error e, st1) => (Except.error e, st1)) ∧
    (∀ (client : MClient) (config : IImportConfig) (item : IPreparedImportItem)
       (bf : List IBinaryFile) (cur : List IImportItemResult) (st : TraceState)
       (newItems : List IImportItemResult) (st' : TraceState),
       config.processItemEnabled = true →
       importItemAsync client config item bf cur st = (Except.ok newItems, st') →
       st'.cbs = st.cbs ++ newItems.map expectedCb) :=
  ⟨importAsyncGo_append, importItemAsync_cbs⟩
/-- Trace left by importing `variantV` against `itemBResult` through `testClient`. -/
def variantVTrace : TraceState :=
  { calls := [RemoteCall.upsertLanguageVariant "item_b" "lang_a"
      [{ element_id := "e1", value_refs := ["item-target", "unrelated"] }]]
    cbs := [{ title := "item_b (lang_a)"
              type := ItemType.languageVariant
              data := ValidImportModel.languageVariant
                { item := { id := "variant-item-item_b-lang_a" } } }] }

/-- Concrete language variant whose item codename is unset. -/
def variantNoItemCodename : LanguageVariantContract :=
  { item := { id := "src-item-x", codename := none }
    language := { id := "src-lang-a", codename := some "lang_a" }
    workflow_step := { id := "src-wf" }
    elements := [] }

/-- Concrete content item with a set type codename. -/
def itemWithType : ContentItemContract :=
  { id := "src-item-c"
    name := "Item C"
    codename := "item_c"
    external_id := none
    type_codename := some "movie" }

/-- Test configuration with `skip.languages` set. -/
def skipConfig : IImportConfig :=
  { workflowIdForImportedItems := "wf-default"
    skipLanguages := true
    processItemEnabled := true }

/-- Counterexample to claim C8 as stated: importing `variantV` (source workflow
step id `src-wf`) after `itemBResult` records as `original` a payload whose
workflow step id is the configured default and whose id references are
translated — the input payload was edited in place, not kept as captured. -/
theorem variant_payload_mutated :
    (importLanguageVariantsAsync testClient testConfig [variantV] [itemBResult]
        emptyTrace).1 = Except.ok [variantVResult] ∧
      variantVResult.original ≠ ValidImportContract.languageVariant variantV := by
  refine ⟨rfl, ?_⟩
  decide
/-- Witness for the amended C1 theorem at a concrete run: language A completes,
content item B fails validation, taxonomy D is never attempted, and the outcome
is the propagated error with A's trace. -/
theorem importAsync_halts_at_first_error_witness :
    importAsyncGo testClient testConfig []
        [{ type := "language", item := ValidImportContract.language selfFallbackLang }] []
        emptyTrace = (Except.ok [langAResult], langATrace) ∧
      importItemAsync testClient testConfig
          { type := "contentItem", item := ValidImportContract.contentItem itemNoType } []
          [langAResult] langATrace =
        (Except.error "Content item 'item_b' has unset type codename", langATrace) ∧
      importAsync testClient testConfig
          { orderedImportItems :=
              [{ type := "language", item := ValidImportContract.language selfFallbackLang },
               { type := "contentItem", item := ValidImportContract.contentItem itemNoType },
               { type := "taxonomy", item := ValidImportContract.taxonomy taxD }]
            binaryFiles := [] } emptyTrace =
        (Except.error "Content item 'item_b' has unset type codename", langATrace) :=
  ⟨rfl, rfl,
    importAsync_halts_at_first_error testClient testConfig []
      [{ type := "language", item := ValidImportContract.language selfFallbackLang }]
      { type := "contentItem", item := ValidImportContract.contentItem itemNoType }
      [{ type := "taxonomy", item := ValidImportContract.taxonomy taxD }]
      emptyTrace langATrace langATrace [langAResult]
      "Content item 'item_b' has unset type codename" rfl rfl⟩

/-- Witness for the C2 theorem at a concrete item: importing taxonomy D with the
callback configured invokes it once with the display title, kind and payload. -/
theorem importAsync_sequencing_witness :
    testConfig.processItemEnabled = true ∧
      importItemAsync testClient testConfig
          { type := "taxonomy", item := ValidImportContract.taxonomy taxD } [] []
          emptyTrace = (Except.ok [taxDResult], taxDTrace) ∧
      taxDTrace.cbs = emptyTrace.cbs ++ [taxDResult].map expectedCb :=
  ⟨rfl, rfl,
    importAsync_sequencing.2 testClient testConfig
      { type := "taxonomy", item := ValidImportContract.taxonomy taxD } [] []
      emptyTrace [taxDResult] taxDTrace rfl rfl⟩

/-- Witness for the C3 theorem at a concrete language whose fallback codename
equals its own codename: the request carries the zero-GUID sentinel. -/
theorem importLanguagesAsync_fallback_request_witness :
    falsyOptStr selfFallbackLang.fallback_language_codename = false ∧
      (importLanguagesAsync testClient testConfig [selfFallbackLang] emptyTrace).2.calls =
        emptyTrace.calls ++
          [RemoteCall.addLanguage
            { codename := "lang_a"
              name := "Lang A"
              external_id := none
              fallback_language := Reference.byId "00000000-0000-0000-0000-000000000000"
              is_active := true }] :=
  ⟨rfl,
    importLanguagesAsync_fallback_request testClient testConfig selfFallbackLang
      emptyTrace rfl⟩
/-- Witness for the C4 theorem at concrete inputs: without a binary payload the
asset import fails with an unchanged trace; with `binA` joined, the run uploads
the bytes and then creates the asset carrying the returned file reference. -/
theorem importAssetsAsync_binary_join_witness :
    ([] : List IBinaryFile).find? (fun m => m.asset.id == assetA.id) = none ∧
      importAssetsAsync testClient testConfig [assetA] [] emptyTrace =
        (Except.error "Could not find binary file for asset with id 'src-asset-a'",
          emptyTrace) ∧
      [binA].find? (fun m => m.asset.id == assetA.id) = some binA ∧
      (importAssetsAsync testClient testConfig [assetA] [binA] emptyTrace).2.calls =
        emptyTrace.calls ++
          (RemoteCall.uploadBinaryFile
              { binaryData := "bytes", contentType := "image/png", filename := "a.png" } ::
            [RemoteCall.addAsset
              { descriptions := "desc"
                file_reference := { id := "file-a.png" }
                title := "Asset A"
                external_id := none }]) :=
  ⟨rfl,
    importAssetsAsync_binary_join.1 testClient testConfig assetA [] emptyTrace rfl,
    rfl,
    importAssetsAsync_binary_join.2 testClient testConfig assetA [binA] emptyTrace binA
      rfl⟩

/-- Witness for the C5 theorem at concrete inputs: a variant without an item
codename fails with an unchanged trace; for `variantV` the single issued call is
the upsert addressed by its codename pair, carrying the rewritten elements. -/
theorem importLanguageVariantsAsync_codename_addressing_witness :
    falsyOptStr variantNoItemCodename.item.codename = true ∧
      importLanguageVariantsAsync testClient testConfig [variantNoItemCodename] []
          emptyTrace = (Except.error "Missing item codename for item", emptyTrace) ∧
      falsyOptStr variantV.item.codename = false ∧
      falsyOptStr variantV.language.codename = false ∧
      (importLanguageVariantsAsync testClient testConfig [variantV] [itemBResult]
            emptyTrace).2.calls =
        emptyTrace.calls ++
          [RemoteCall.upsertLanguageVariant "item_b" "lang_a"
            [{ element_id := "e1", value_refs := ["item-target", "unrelated"] }]] :=
  ⟨rfl,
    importLanguageVariantsAsync_codename_addressing.1 testClient testConfig
      variantNoItemCodename [] emptyTrace rfl,
    rfl, rfl,
    importLanguageVariantsAsync_codename_addressing.2.2 testClient testConfig variantV
      [itemBResult] emptyTrace rfl rfl⟩

/-- Witness for the C6 theorem at a concrete run: the recorded payload of the
imported `variantV` carries the configured default workflow step id. -/
theorem importLanguageVariantsAsync_workflow_default_witness :
    importLanguageVariantsAsync testClient testConfig [variantV] [itemBResult]
        emptyTrace = (Except.ok [variantVResult], variantVTrace) ∧
      originalVariantWorkflowId variantVResult =
        some testConfig.workflowIdForImportedItems :=
  ⟨rfl,
    importLanguageVariantsAsync_workflow_default testClient testConfig variantV
      [itemBResult] emptyTrace variantVResult variantVTrace rfl⟩

/-- Witness for the C7 theorem at concrete inputs: `itemNoType` fails with an
unchanged trace; `itemWithType` yields one create request referencing the content
type by codename. -/
theorem importContentItemAsync_type_codename_witness :
    falsyOptStr itemNoType.type_codename = true ∧
      importContentItemAsync testClient testConfig [itemNoType] emptyTrace =
        (Except.error "Content item 'item_b' has unset type codename", emptyTrace) ∧
      falsyOptStr itemWithType.type_codename = false ∧
      (importContentItemAsync testClient testConfig [itemWithType] emptyTrace).2.calls =
        emptyTrace.calls ++
          [RemoteCall.addContentItem
            { name := "Item C"
              type := Reference.byCodename "movie"
              codename := "item_c"
              external_id := none }] :=
  ⟨rfl,
    importContentItemAsync_type_codename.1 testClient testConfig itemNoType emptyTrace
      rfl,
    rfl,
    importContentItemAsync_type_codename.2 testClient testConfig itemWithType emptyTrace
      rfl⟩

/-- Witness for the amended C8 theorem at concrete inputs: a taxonomy item's
recorded original is the input payload unchanged, while `variantV`'s recorded
original is the in-place rewritten payload. -/
theorem import_payload_mutation_witness :
    (({ type := "taxonomy", item := ValidImportContract.taxonomy taxD } :
        IPreparedImportItem).type ≠ "languageVariant") ∧
      importItemAsync testClient testConfig
          { type := "taxonomy", item := ValidImportContract.taxonomy taxD } [] []
          emptyTrace = (Except.ok [taxDResult], taxDTrace) ∧
      taxDResult.original = ValidImportContract.taxonomy taxD ∧
      importLanguageVariantsAsync testClient testConfig [variantV] [itemBResult]
          emptyTrace = (Except.ok [variantVResult], variantVTrace) ∧
      variantVResult.original = ValidImportContract.languageVariant mutatedVariantV :=
  ⟨by decide, rfl,
    import_payload_mutation.1 testClient testConfig
      { type := "taxonomy", item := ValidImportContract.taxonomy taxD } [] []
      emptyTrace [taxDResult] taxDTrace (by decide) rfl taxDResult (by simp),
    rfl,
    import_payload_mutation.2 testClient testConfig variantV [itemBResult] emptyTrace
      variantVResult variantVTrace rfl⟩

/-- Witness for the C9 theorem at a concrete unsupported tag. -/
theorem importItemAsync_unsupported_type_witness :
    ("widget" : String) ≠ "contentType" ∧ ("widget" : String) ≠ "taxonomy" ∧
      ("widget" : String) ≠ "contentTypeSnippet" ∧ ("widget" : String) ≠ "contentItem" ∧
      ("widget" : String) ≠ "languageVariant" ∧ ("widget" : String) ≠ "language" ∧
      ("widget" : String) ≠ "asset" ∧
      (importItemAsync testClient testConfig
            { type := "widget", item := ValidImportContract.taxonomy taxD } [] []
            emptyTrace =
          (Except.error "Not supported import data type 'widget'", emptyTrace) ∧
        importAsyncGo testClient testConfig []
            [{ type := "widget", item := ValidImportContract.taxonomy taxD }] []
            emptyTrace =
          (Except.error "Not supported import data type 'widget'", emptyTrace)) :=
  ⟨by decide, by decide, by decide, by decide, by decide, by decide, by decide,
    importItemAsync_unsupported_type testClient testConfig "widget"
      (ValidImportContract.taxonomy taxD) [] [] [] emptyTrace (by decide) (by decide)
      (by decide) (by decide) (by decide) (by decide) (by decide)⟩

/-- Witness for the C10 theorem at concrete inputs: with the flag set a language
item yields no result and no trace change, and a taxonomy item is processed
identically with the flag set or unset. -/
theorem importItemAsync_skip_languages_witness :
    skipConfig.skipLanguages = true ∧
      importItemAsync testClient skipConfig
          { type := "language", item := ValidImportContract.language selfFallbackLang }
          [] [] emptyTrace = (Except.ok [], emptyTrace) ∧
      (({ type := "taxonomy", item := ValidImportContract.taxonomy taxD } :
          IPreparedImportItem).type ≠ "language") ∧
      importItemAsync testClient { testConfig with skipLanguages := true }
          { type := "taxonomy", item := ValidImportContract.taxonomy taxD } [] []
          emptyTrace =
        importItemAsync testClient testConfig
          { type := "taxonomy", item := ValidImportContract.taxonomy taxD } [] []
          emptyTrace :=
  ⟨rfl,
    importItemAsync_skip_languages.1 testClient skipConfig selfFallbackLang [] []
      emptyTrace rfl,
    by decide,
    importItemAsync_skip_languages.2 testClient testConfig true
      { type := "taxonomy", item := ValidImportContract.taxonomy taxD } [] []
      emptyTrace (by decide)⟩
